import Mathlib

/-!
Shallow embedding of the PearlCard fare-rule lookup and multi-level caching
subsystem (backend/app: cache.py, config.py, database.py,
services/fare_calculator.py, models.py, api/endpoints.py).

Conventions of the embedding:
* Python ints are modelled as Int, Python floats carrying fares as Rat
  (the fare values appearing in the rules and scenarios are exactly
  representable, so Rat arithmetic agrees with the source arithmetic there).
* Python dicts are modelled as association lists with overwrite-in-place
  insertion; lookup finds the unique binding.
* Stateful methods become explicit state passing: each method of
  FareRulesCache takes and returns the cache state, and the current wall
  clock time is an explicit argument replacing time.time().  Wall clock
  times and the ttl are modelled as integer seconds: the source only ever
  subtracts and compares them, so nothing in the claims depends on
  sub-second resolution.
* The redis client is modelled as either absent (construction failed or no
  url, redis_client = None), connected with a key-value store, or
  unreachable (every network operation raises).  Operations on the client
  return Except Unit so that the try/except handlers of the source are
  modelled explicitly.
-/

/-! ### Association list helpers (Python dict) -/

def lookupAssoc {α β : Type} [DecidableEq α] : List (α × β) → α → Option β
  | [], _ => none
  | (k, v) :: rest, key => if k = key then some v else lookupAssoc rest key

def insertAssoc {α β : Type} [DecidableEq α] : List (α × β) → α → β → List (α × β)
  | [], key, val => [(key, val)]
  | (k, v) :: rest, key, val =>
    if k = key then (key, val) :: rest else (k, v) :: insertAssoc rest key val

def eraseAssoc {α β : Type} [DecidableEq α] : List (α × β) → α → List (α × β)
  | [], _ => []
  | (k, v) :: rest, key =>
    if k = key then rest else (k, v) :: eraseAssoc rest key

/-! ### Normalization (cache.py, FareRulesCache._make_key)

The source builds the string key "fare:z1:z2" from the sorted pair; we keep
the sorted pair itself.  Every key the cache ever writes (memory or redis)
is such a fare key, so the redis pattern scan for "fare:*" in
invalidate_cache matches every key of the modelled store. -/

def make_key (from_zone to_zone : ℤ) : ℤ × ℤ :=
  if from_zone ≤ to_zone then (from_zone, to_zone) else (to_zone, from_zone)

/-! ### Redis client model -/

inductive RedisClient : Type where
  | connected (store : List ((ℤ × ℤ) × ℚ))
  | unreachable
deriving DecidableEq

/-- redis get: returns the stored value, raises when unreachable. -/
def redis_get : RedisClient → ℤ × ℤ → Except Unit (Option ℚ)
  | .connected store, key => .ok (lookupAssoc store key)
  | .unreachable, _ => .error ()

/-- redis setex: stores the value (server-side expiry is internal to redis
and not re-checked by this component), raises when unreachable. -/
def redis_setex : RedisClient → ℤ × ℤ → ℚ → Except Unit RedisClient
  | .connected store, key, fare => .ok (.connected (insertAssoc store key fare))
  | .unreachable, _, _ => .error ()

/-- redis delete of one key, raises when unreachable. -/
def redis_delete : RedisClient → ℤ × ℤ → Except Unit RedisClient
  | .connected store, key => .ok (.connected (eraseAssoc store key))
  | .unreachable, _ => .error ()

/-- scan_iter("fare:*") plus delete of every returned key: every key held by
the modelled store is a fare key, so this empties the store. -/
def redis_clear_fare_keys : RedisClient → Except Unit RedisClient
  | .connected _ => .ok (.connected [])
  | .unreachable => .error ()

/-- redis pipeline of setex calls executed in one batch (bulk_load_fares). -/
def redis_msetex : RedisClient → List ((ℤ × ℤ) × ℚ) → Except Unit RedisClient
  | .connected store, entries =>
    .ok (.connected (entries.foldl (fun acc e => insertAssoc acc e.1 e.2) store))
  | .unreachable, _ => .error ()

/-! ### FareRulesCache (cache.py) -/

structure FareRulesCache : Type where
  ttl : ℤ
  memoryCache : List ((ℤ × ℤ) × ℚ)
  cacheTimestamps : List ((ℤ × ℤ) × ℤ)
  /-- The functools.lru_cache memo table sitting in front of
  get_fare_cached: it is keyed by the raw, un-normalized argument pair and
  memoizes whatever the body returned, including None.  maxsize is 1000 in
  the source; no scenario below reaches it, so the model is unbounded. -/
  lruMemo : List ((ℤ × ℤ) × Option ℚ)
  redis : Option RedisClient
deriving DecidableEq

/-- FareRulesCache._is_memory_cache_valid. -/
def is_memory_cache_valid (c : FareRulesCache) (key : ℤ × ℤ) (now : ℤ) : Bool :=
  match lookupAssoc c.cacheTimestamps key with
  | none => false
  | some ts => decide (now - ts < c.ttl)

/-- Level 2 of get_fare_cached: the redis read with its try/except handler;
a hit back-fills the in-memory cache. -/
def redis_phase (c : FareRulesCache) (key : ℤ × ℤ) (now : ℤ) :
    Option ℚ × FareRulesCache :=
  match c.redis with
  | none => (none, c)
  | some client =>
    match redis_get client key with
    | .ok (some fare) =>
      (some fare,
        { c with
          memoryCache := insertAssoc c.memoryCache key fare
          cacheTimestamps := insertAssoc c.cacheTimestamps key now })
    | .ok none => (none, c)
    | .error _ => (none, c)

/-- Body of FareRulesCache.get_fare_cached (without the lru_cache wrapper):
level 1 is the in-memory cache guarded by the TTL check, level 2 is redis,
otherwise a miss is reported to the caller. -/
def get_fare_cached_body (c : FareRulesCache) (from_zone to_zone : ℤ)
    (now : ℤ) : Option ℚ × FareRulesCache :=
  let key := make_key from_zone to_zone
  if (lookupAssoc c.memoryCache key).isSome && is_memory_cache_valid c key now then
    (lookupAssoc c.memoryCache key, c)
  else
    redis_phase c key now

/-- FareRulesCache.get_fare_cached as called, i.e. including the
functools.lru_cache wrapper: a memoized result for the exact argument pair
is returned as is; otherwise the body runs and its result is memoized. -/
def get_fare_cached (c : FareRulesCache) (from_zone to_zone : ℤ)
    (now : ℤ) : Option ℚ × FareRulesCache :=
  match lookupAssoc c.lruMemo (from_zone, to_zone) with
  | some memoized => (memoized, c)
  | none =>
    let res := get_fare_cached_body c from_zone to_zone now
    (res.1, { res.2 with lruMemo := insertAssoc res.2.lruMemo (from_zone, to_zone) res.1 })

/-- FareRulesCache.set_fare_cache. -/
def set_fare_cache (c : FareRulesCache) (from_zone to_zone : ℤ) (fare : ℚ)
    (now : ℤ) : FareRulesCache :=
  let key := make_key from_zone to_zone
  let c1 := { c with
    memoryCache := insertAssoc c.memoryCache key fare
    cacheTimestamps := insertAssoc c.cacheTimestamps key now }
  match c1.redis with
  | none => c1
  | some client =>
    match redis_setex client key fare with
    | .ok client1 => { c1 with redis := some client1 }
    | .error _ => c1

/-- Python truthiness of the optional zone arguments in invalidate_cache:
None and 0 are falsy. -/
def truthy : Option ℤ → Bool
  | none => false
  | some z => decide (z ≠ 0)

/-- FareRulesCache.invalidate_cache.  The branch condition is the Python
truthiness test if from_zone and to_zone. -/
def invalidate_cache (c : FareRulesCache) (from_zone to_zone : Option ℤ) :
    FareRulesCache :=
  if truthy from_zone && truthy to_zone then
    let key := make_key (from_zone.getD 0) (to_zone.getD 0)
    let c1 := { c with
      memoryCache := eraseAssoc c.memoryCache key
      cacheTimestamps := eraseAssoc c.cacheTimestamps key
      lruMemo := [] }
    match c1.redis with
    | none => c1
    | some client =>
      match redis_delete client key with
      | .ok client1 => { c1 with redis := some client1 }
      | .error _ => c1
  else
    let c1 := { c with
      memoryCache := []
      cacheTimestamps := []
      lruMemo := [] }
    match c1.redis with
    | none => c1
    | some client =>
      match redis_clear_fare_keys client with
      | .ok client1 => { c1 with redis := some client1 }
      | .error _ => c1

/-- FareRulesCache.bulk_load_fares: every rule is written to the memory
cache with the current timestamp, and to redis through one pipeline. -/
def bulk_load_fares (c : FareRulesCache) (fare_rules : List ((ℤ × ℤ) × ℚ))
    (now : ℤ) : FareRulesCache :=
  let c1 := fare_rules.foldl
    (fun acc entry =>
      { acc with
        memoryCache := insertAssoc acc.memoryCache (make_key entry.1.1 entry.1.2) entry.2
        cacheTimestamps := insertAssoc acc.cacheTimestamps (make_key entry.1.1 entry.1.2) now })
    c
  match c1.redis with
  | none => c1
  | some client =>
    match redis_msetex client (fare_rules.map (fun e => (make_key e.1.1 e.1.2, e.2))) with
    | .ok client1 => { c1 with redis := some client1 }
    | .error _ => c1

/-- View of the shared cache level used to state claims: the value the
shared cache can deliver for a key (absent when there is no client, the
client is unreachable, or the store has no binding). -/
def redis_lookup : Option RedisClient → ℤ × ℤ → Option ℚ
  | none, _ => none
  | some .unreachable, _ => none
  | some (.connected store), key => lookupAssoc store key

/-! ### Rule store (database.py) -/

/-- One row of the fare_rules table (FareRuleDB).  The description column is
never read by any logic and is omitted. -/
structure FareRow : Type where
  from_zone : ℤ
  to_zone : ℤ
  fare : ℚ
deriving DecidableEq

/-- The uniqueness constraint declared on the table,
UniqueConstraint(from_zone, to_zone): no two rows share the same ordered
(from_zone, to_zone) pair. -/
def zone_pair_uc (table : List FareRow) : Prop :=
  (table.map (fun r => (r.from_zone, r.to_zone))).Nodup

instance (table : List FareRow) : Decidable (zone_pair_uc table) := by
  unfold zone_pair_uc; infer_instance

/-- Uniqueness up to normalization, the property the spec attributes to the
table: no two rows share the same unordered zone pair. -/
def unordered_pair_unique (table : List FareRow) : Prop :=
  (table.map (fun r => make_key r.from_zone r.to_zone)).Nodup

instance (table : List FareRow) : Decidable (unordered_pair_unique table) := by
  unfold unordered_pair_unique; infer_instance

/-- DatabaseManager.get_fare: first row matching the exact ordering, then
first row matching the reversed ordering. -/
def db_get_fare (table : List FareRow) (from_zone to_zone : ℤ) : Option ℚ :=
  match table.find? (fun r => r.from_zone = from_zone ∧ r.to_zone = to_zone) with
  | some r => some r.fare
  | none =>
    (table.find? (fun r => r.from_zone = to_zone ∧ r.to_zone = from_zone)).map FareRow.fare

/-- DatabaseManager.update_fare_rule: the first row matching the exact
ordering, if any, has its fare overwritten in place; otherwise a fresh row
is appended.  No reversed-order match is attempted. -/
def db_update_fare_rule : List FareRow → ℤ → ℤ → ℚ → List FareRow
  | [], from_zone, to_zone, new_fare => [⟨from_zone, to_zone, new_fare⟩]
  | r :: rest, from_zone, to_zone, new_fare =>
    if r.from_zone = from_zone ∧ r.to_zone = to_zone then
      { r with fare := new_fare } :: rest
    else
      r :: db_update_fare_rule rest from_zone to_zone new_fare

/-- DatabaseManager.get_all_fare_rules: dict keyed by the raw ordered pair. -/
def get_all_fare_rules (table : List FareRow) : List ((ℤ × ℤ) × ℚ) :=
  table.map (fun r => ((r.from_zone, r.to_zone), r.fare))

def insert_sorted (z : ℤ) : List ℤ → List ℤ
  | [] => [z]
  | y :: ys => if z ≤ y then z :: y :: ys else y :: insert_sorted z ys

def sort_zones (zones : List ℤ) : List ℤ :=
  zones.foldr insert_sorted []

/-- DatabaseManager.get_available_zones: sorted set of all zones mentioned
by any rule. -/
def get_available_zones (table : List FareRow) : List ℤ :=
  sort_zones ((table.map FareRow.from_zone ++ table.map FareRow.to_zone).dedup)

/-- The rows written by DatabaseManager.init_default_fare_rules. -/
def default_rules : List FareRow :=
  [⟨1, 1, 40⟩, ⟨1, 2, 55⟩, ⟨1, 3, 65⟩, ⟨2, 2, 35⟩, ⟨2, 3, 45⟩, ⟨3, 3, 30⟩]

/-! ### Settings and full system state (config.py, endpoints.py) -/

/-- The mutable pieces of process state the fare path touches: the
fare_rules table of the store, the two class-level snapshot caches of
Settings, and the FareRulesCache singleton. -/
structure SystemState : Type where
  db : List FareRow
  settings_fare_rules : Option (List ((ℤ × ℤ) × ℚ))
  settings_zones : Option (List ℤ)
  cache : FareRulesCache
deriving DecidableEq

/-- cache.py get_fare_with_cache: cache-first read, on miss a store read
followed by a back-fill of both cache levels, and the sentinel 0.0 when the
store has no rule (fare or 0.0). -/
def get_fare_with_cache (db : List FareRow) (c : FareRulesCache)
    (from_zone to_zone : ℤ) (now : ℤ) : ℚ × FareRulesCache :=
  let res := get_fare_cached c from_zone to_zone now
  match res.1 with
  | some fare => (fare, res.2)
  | none =>
    match db_get_fare db from_zone to_zone with
    | some fare => (fare, set_fare_cache res.2 from_zone to_zone fare now)
    | none => (0, res.2)

/-- Settings.get_fare: the import of app.cache always succeeds in this
repository, so the method is the cache-first path get_fare_with_cache; the
ImportError fallback branches are dead here and not modelled. -/
def settings_get_fare (st : SystemState) (from_zone to_zone : ℤ) (now : ℤ) :
    ℚ × SystemState :=
  let res := get_fare_with_cache st.db st.cache from_zone to_zone now
  (res.1, { st with cache := res.2 })

/-- Settings.reload_fare_rules: drops and immediately repopulates the two
Settings snapshots from the store.  It performs no operation on the
FareRulesCache singleton, its lru memo, or redis. -/
def settings_reload_fare_rules (st : SystemState) : SystemState :=
  { st with
    settings_fare_rules := some (get_all_fare_rules st.db)
    settings_zones := some (get_available_zones st.db) }

/-- The administrative mutation as the PUT /fare-rules endpoint performs it:
DatabaseManager.update_fare_rule followed by Settings.reload_fare_rules. -/
def api_update_fare_rule (st : SystemState) (from_zone to_zone : ℤ)
    (fare : ℚ) : SystemState :=
  settings_reload_fare_rules { st with db := db_update_fare_rule st.db from_zone to_zone fare }

/-! ### Fare calculator (services/fare_calculator.py, models.py) -/

structure Journey : Type where
  from_zone : ℤ
  to_zone : ℤ
deriving DecidableEq

structure JourneyWithFare : Type where
  from_zone : ℤ
  to_zone : ℤ
  fare : ℚ
  journey_id : Option ℕ
deriving DecidableEq

structure FareResponse : Type where
  journeys : List JourneyWithFare
  total_daily_fare : ℚ
  journey_count : ℕ
deriving DecidableEq

/-- Python round at scale 1 (round half to even), used by round(x, 2). -/
def round_half_even_int (q : ℚ) : ℤ :=
  let n : ℤ := ⌊q⌋
  let frac : ℚ := q - n
  if frac < 1/2 then n
  else if 1/2 < frac then n + 1
  else if n % 2 = 0 then n else n + 1

/-- round(x, 2): round half to even at two decimal places. -/
def round2 (q : ℚ) : ℚ :=
  (round_half_even_int (q * 100) : ℚ) / 100

/-- Loop body of BaseFareCalculator.calculate_all_fares: enumerate from 1,
resolve each journey in order, collect the itemized result, accumulate the
raw total.  The source accumulates the total left to right; over Rat the
right-nested sum below is equal. -/
def calc_loop (single : Journey → ℚ) : ℕ → List Journey → List JourneyWithFare × ℚ
  | _, [] => ([], 0)
  | idx, j :: rest =>
    let fare := single j
    let res := calc_loop single (idx + 1) rest
    (⟨j.from_zone, j.to_zone, fare, some idx⟩ :: res.1, fare + res.2)

/-- BaseFareCalculator.calculate_all_fares, parametric in the single-journey
resolver (calculate_single_fare of the concrete calculator): items in input
order with 1-based ids, total rounded to 2 decimals exactly once at the
end, count from the input length. -/
def calculate_all_fares (single : Journey → ℚ) (journeys : List Journey) :
    FareResponse :=
  let res := calc_loop single 1 journeys
  ⟨res.1, round2 res.2, journeys.length⟩

/-- The pure rule-table resolver: the normalized-key dictionary lookup with
sentinel 0.0 (the fare_rules.get(tuple(sorted(...)), 0.0) form used by
Settings.get_fare as last resort, which is also what the whole resolution
chain computes on a warm store). -/
def fare_from_rules (rules : List ((ℤ × ℤ) × ℚ)) (j : Journey) : ℚ :=
  (lookupAssoc rules (make_key j.from_zone j.to_zone)).getD 0

/-! ### Request validation and the endpoint (models.py, endpoints.py) -/

def MAX_JOURNEYS_PER_DAY : ℕ := 20

/-- The pydantic Journey validator: both zones at least 1 (ge=1) and both
registered (Settings.is_valid_zone against the available zones). -/
def journey_valid (zones : List ℤ) (j : Journey) : Bool :=
  decide (1 ≤ j.from_zone) && decide (1 ≤ j.to_zone) &&
    decide (j.from_zone ∈ zones) && decide (j.to_zone ∈ zones)

/-- The pydantic JourneyRequest validation: between 1 and 20 journeys
(min_items, max_items and the validate_journey_count validator) with every
journey individually valid. -/
def journey_request_valid (zones : List ℤ) (journeys : List Journey) : Bool :=
  journeys.all (journey_valid zones) &&
    decide (1 ≤ journeys.length) && decide (journeys.length ≤ 20)

/-- The POST /api/calculate-fares pipeline: pydantic request validation
(a 422 rejection), then the endpoint guard against
settings.MAX_JOURNEYS_PER_DAY (a 400 rejection), then the calculator. -/
def calculate_fares_endpoint (zones : List ℤ) (single : Journey → ℚ)
    (journeys : List Journey) : Except String FareResponse :=
  if !journey_request_valid zones journeys then
    .error "request validation failed"
  else if journeys.length > MAX_JOURNEYS_PER_DAY then
    .error "maximum journeys per day exceeded"
  else
    .ok (calculate_all_fares single journeys)

/-! ### Concrete process scenarios -/

/-- The FareRulesCache singleton as it exists after process start with no
reachable redis: constructed with redis_client = None and warmed from the
default rule table at time 0 (get_fare_cache). -/
def boot_cache : FareRulesCache :=
  bulk_load_fares ⟨3600, [], [], [], none⟩ (get_all_fare_rules default_rules) 0

/-- Full process state after startup: default rules in the store, Settings
snapshots not yet loaded, warmed cache. -/
def boot_state : SystemState :=
  ⟨default_rules, none, none, boot_cache⟩

/-- State after one fare read for (1,2) at time 0 (it returns 55 and leaves
a memo entry behind). -/
def state_after_read : SystemState :=
  (settings_get_fare boot_state 1 2 0).2

/-- State after the administrative PUT /fare-rules call setting the (1,2)
fare to 99: DatabaseManager.update_fare_rule followed by
Settings.reload_fare_rules. -/
def state_after_update : SystemState :=
  api_update_fare_rule state_after_read 1 2 99

/-- A rule table holding the default (1,2) rule only. -/
def c2_table : List FareRow :=
  [⟨1, 2, 55⟩]

/-- The rule set of the worked batch example: (1,1) at 40, (1,2) at 55,
(2,3) at 45, (3,3) at 30. -/
def c6_rules : List ((ℤ × ℤ) × ℚ) :=
  [((1, 1), 40), ((1, 2), 55), ((2, 3), 45), ((3, 3), 30)]

/-- The journeys of the worked batch example. -/
def c6_journeys : List Journey :=
  [⟨1, 2⟩, ⟨2, 3⟩, ⟨3, 3⟩, ⟨1, 1⟩]

/-- A concrete warm cache with a connected shared cache, used to witness
the invalidation branching. -/
def c10_cache : FareRulesCache :=
  ⟨3600, [((1, 2), 55)], [((1, 2), 0)], [((1, 2), some 55)],
    some (.connected [((1, 2), 55)])⟩

/-- Claim C1: after updateRule(1,2,99) followed by reloadRules(), the next
resolveFare(1,2) must return 99 and never a previously cached value.  The
code violates this: the store now holds 99, yet the next read still returns
the previously cached 55, because reload_fare_rules never touches the
FareRulesCache singleton, its lru_cache memo, or redis. -/
theorem reload_then_resolve_serves_stale_fare :
    db_get_fare state_after_update.db 1 2 = some 99 ∧
    (settings_get_fare state_after_update 1 2 1).1 = 55 ∧
    (settings_get_fare state_after_update 1 2 1).1 ≠ 99 := by decide

/-- Claim C3: the process-local cache must never return a TTL-expired
value.  The code violates this: with ttl = 10, a fare written and read at
time 0 is still returned by get_fare_cached at time 100, because the
lru_cache memo in front of the body bypasses the TTL check. -/
theorem expired_entry_still_returned :
    (get_fare_cached ((get_fare_cached (set_fare_cache ⟨10, [], [], [], none⟩ 1 2 55 0) 1 2 0).2) 1 2 100).1
        = some 55 ∧
    is_memory_cache_valid ((get_fare_cached (set_fare_cache ⟨10, [], [], [], none⟩ 1 2 55 0) 1 2 0).2)
        (make_key 1 2) 100 = false := by decide

/-- Claim C4: resolveFare(a,b) = resolveFare(b,a) must hold in every
reachable state.  The code violates this: in the reachable state reached by
reading fare (1,2), updating the rule to 99, reloading, and letting the
memory TTL lapse (time 5000 with ttl 3600), resolving (1,2) still hits the
stale lru memo entry keyed by the raw argument order and yields 55, while
resolving (2,1) misses the memo, falls through to the store, and yields
99. -/
theorem resolve_fare_not_symmetric :
    (settings_get_fare state_after_update 1 2 5000).1 = 55 ∧
    (settings_get_fare state_after_update 2 1 5000).1 = 99 ∧
    (settings_get_fare state_after_update 1 2 5000).1 ≠
      (settings_get_fare state_after_update 2 1 5000).1 := by decide

/-! ### Helper lemmas about the calculator loop and rounding -/

theorem calc_loop_length (single : Journey → ℚ) (idx : ℕ) (js : List Journey) :
    (calc_loop single idx js).1.length = js.length := by
  induction js generalizing idx with
  | nil => rfl
  | cons j rest ih => simp [calc_loop, ih]

theorem calc_loop_journeys (single : Journey → ℚ) (idx : ℕ) (js : List Journey) :
    (calc_loop single idx js).1.map (fun i => Journey.mk i.from_zone i.to_zone) = js := by
  induction js generalizing idx with
  | nil => rfl
  | cons j rest ih => simp [calc_loop, ih]

theorem calc_loop_fares (single : Journey → ℚ) (idx : ℕ) (js : List Journey) :
    (calc_loop single idx js).1.map JourneyWithFare.fare = js.map single := by
  induction js generalizing idx with
  | nil => rfl
  | cons j rest ih => simp [calc_loop, ih]

theorem calc_loop_ids (single : Journey → ℚ) (idx : ℕ) (js : List Journey) :
    (calc_loop single idx js).1.map JourneyWithFare.journey_id =
      (List.range js.length).map (fun k => some (idx + k)) := by
  induction js generalizing idx with
  | nil => rfl
  | cons j rest ih =>
    simp only [calc_loop, List.map_cons, List.length_cons, ih (idx + 1),
      List.range_succ_eq_map, List.map_map]
    refine List.cons_eq_cons.mpr ⟨by simp, List.map_congr_left fun k _ => ?_⟩
    simp [Function.comp]
    omega

theorem calc_loop_total (single : Journey → ℚ) (idx : ℕ) (js : List Journey) :
    (calc_loop single idx js).2 = (js.map single).sum := by
  induction js generalizing idx with
  | nil => rfl
  | cons j rest ih => simp [calc_loop, ih]

theorem round2_intCast (n : ℤ) : round2 (n : ℚ) = (n : ℚ) := by
  unfold round2 round_half_even_int
  have h1 : ((n : ℚ)) * 100 = ((n * 100 : ℤ) : ℚ) := by push_cast; ring
  rw [h1]
  simp only [Int.floor_intCast, sub_self]
  norm_num

/-! ### Helper lemmas about the rule-table upsert -/

theorem find_exact_after_update (t : List FareRow) (a b : ℤ) (f : ℚ) :
    (db_update_fare_rule t a b f).find?
        (fun r => r.from_zone = a ∧ r.to_zone = b) = some ⟨a, b, f⟩ := by
  induction t with
  | nil => simp [db_update_fare_rule, List.find?]
  | cons r rest ih =>
    by_cases h : r.from_zone = a ∧ r.to_zone = b
    · simp [db_update_fare_rule, h, List.find?, FareRow.mk.injEq, h.1, h.2]
    · have hfalse : decide (r.from_zone = a ∧ r.to_zone = b) = false := by
        simpa using h
      rw [db_update_fare_rule, if_neg h, List.find?, hfalse]
      exact ih

theorem db_get_fare_after_update (t : List FareRow) (a b : ℤ) (f : ℚ) :
    db_get_fare (db_update_fare_rule t a b f) a b = some f := by
  rw [db_get_fare, find_exact_after_update]

theorem db_update_pairs_of_exact_match (t : List FareRow) (a b : ℤ) (f : ℚ)
    (hex : ∃ r ∈ t, r.from_zone = a ∧ r.to_zone = b) :
    (db_update_fare_rule t a b f).map (fun r => (r.from_zone, r.to_zone)) =
      t.map (fun r => (r.from_zone, r.to_zone)) := by
  induction t with
  | nil => simp at hex
  | cons r rest ih =>
    by_cases h : r.from_zone = a ∧ r.to_zone = b
    · simp [db_update_fare_rule, h]
    · rcases hex with ⟨r1, hr1, hmatch⟩
      rcases List.mem_cons.mp hr1 with rfl | hr1
      · exact absurd hmatch h
      · simp [db_update_fare_rule, h, ih ⟨r1, hr1, hmatch⟩]

theorem db_update_append_of_no_match (t : List FareRow) (a b : ℤ) (f : ℚ)
    (hnone : ∀ r ∈ t, ¬(r.from_zone = a ∧ r.to_zone = b)) :
    db_update_fare_rule t a b f = t ++ [⟨a, b, f⟩] := by
  induction t with
  | nil => rfl
  | cons r rest ih =>
    have h := hnone r (List.mem_cons_self r rest)
    simp only [db_update_fare_rule, if_neg h, List.cons_append, List.cons.injEq, true_and]
    exact ih fun r1 hr1 => hnone r1 (List.mem_cons_of_mem r hr1)

theorem zone_pair_uc_preserved (t : List FareRow) (a b : ℤ) (f : ℚ)
    (huc : zone_pair_uc t) : zone_pair_uc (db_update_fare_rule t a b f) := by
  by_cases hex : ∃ r ∈ t, r.from_zone = a ∧ r.to_zone = b
  · unfold zone_pair_uc at huc ⊢
    rw [db_update_pairs_of_exact_match t a b f hex]
    exact huc
  · have hnone : ∀ r ∈ t, ¬(r.from_zone = a ∧ r.to_zone = b) :=
      fun r hr hm => hex ⟨r, hr, hm⟩
    rw [db_update_append_of_no_match t a b f hnone]
    unfold zone_pair_uc at huc ⊢
    rw [List.map_append]
    refine List.Nodup.append huc (by simp) ?_
    intro p hp hp1
    rcases List.mem_map.mp hp with ⟨r, hr, hpr⟩
    simp only [List.map_cons, List.map_nil, List.mem_singleton] at hp1
    exact hnone r hr (by
      have := hpr.trans hp1
      exact ⟨congrArg Prod.fst this, congrArg Prod.snd this⟩)

/-! ### Claim theorems for the rule-table upsert -/

/-- Claim C2 is false on the code: starting from a table holding the rule
(1,2) at fare 55, the upsert update_fare_rule(2,1,99) does not overwrite
the rule stored with the endpoints reversed but inserts a second row, so
the table then holds two distinct rules for the one unordered zone pair
normalizing to (1,2); the resulting table still satisfies the uniqueness
constraint the table actually declares, which is on the ordered pair. -/
theorem upsert_reversed_pair_inserts_duplicate :
    db_update_fare_rule c2_table 2 1 99 = [⟨1, 2, 55⟩, ⟨2, 1, 99⟩] ∧
    ¬ unordered_pair_unique (db_update_fare_rule c2_table 2 1 99) ∧
    zone_pair_uc (db_update_fare_rule c2_table 2 1 99) := by
  decide

/-- Claim C2 amended: update_fare_rule has upsert semantics with respect to
the ordered (from_zone, to_zone) pair only.  After the call, the exact
ordered lookup yields the new fare; when a row with the same ordered pair
exists, the row set of the table is unchanged (overwrite in place); when no
row has the same ordered pair — even if a reversed-order row exists — a
fresh row is appended; and the uniqueness constraint maintained by the
table, uniqueness of the ordered pair, is preserved. -/
theorem update_fare_rule_ordered_upsert (t : List FareRow) (a b : ℤ) (f : ℚ) :
    db_get_fare (db_update_fare_rule t a b f) a b = some f ∧
    ((∃ r ∈ t, r.from_zone = a ∧ r.to_zone = b) →
      (db_update_fare_rule t a b f).map (fun r => (r.from_zone, r.to_zone)) =
        t.map (fun r => (r.from_zone, r.to_zone))) ∧
    ((∀ r ∈ t, ¬(r.from_zone = a ∧ r.to_zone = b)) →
      db_update_fare_rule t a b f = t ++ [⟨a, b, f⟩]) ∧
    (zone_pair_uc t → zone_pair_uc (db_update_fare_rule t a b f)) :=
  ⟨db_get_fare_after_update t a b f, db_update_pairs_of_exact_match t a b f,
   db_update_append_of_no_match t a b f, zone_pair_uc_preserved t a b f⟩

/-- Witness for the amended C2 theorem at the concrete reversed-order
upsert from the counterexample table. -/
theorem update_fare_rule_ordered_upsert_witness :
    db_get_fare (db_update_fare_rule c2_table 2 1 99) 2 1 = some 99 ∧
    db_update_fare_rule c2_table 2 1 99 = c2_table ++ [⟨2, 1, 99⟩] ∧
    zone_pair_uc (db_update_fare_rule c2_table 2 1 99) :=
  ⟨(update_fare_rule_ordered_upsert c2_table 2 1 99).1,
   (update_fare_rule_ordered_upsert c2_table 2 1 99).2.2.1 (by decide),
   (update_fare_rule_ordered_upsert c2_table 2 1 99).2.2.2 (by decide)⟩

/-! ### Claim theorems for the resolution chain -/

/-- Claim C5: with the shared cache unreachable — the client absent because
construction failed, or the client raising at call time — every shared
cache operation fails soft: the resolution chain still returns the fare
held by the rule store (here from an otherwise cold cache, so the value is
sourced from the store), and neither set_fare_cache nor invalidate_cache
touches the shared cache state.  All four operations are total functions of
the model, so no exception reaches the caller. -/
theorem degraded_shared_cache_fails_soft (db : List FareRow)
    (c : FareRulesCache) (a b : ℤ) (f : ℚ) (now : ℤ)
    (hbroken : c.redis = none ∨ c.redis = some .unreachable)
    (hmemo : lookupAssoc c.lruMemo (a, b) = none)
    (hmem : lookupAssoc c.memoryCache (make_key a b) = none)
    (hdb : db_get_fare db a b = some f) :
    (get_fare_with_cache db c a b now).1 = f ∧
    (get_fare_cached c a b now).1 = none ∧
    (set_fare_cache c a b f now).redis = c.redis ∧
    (invalidate_cache c (some a) (some b)).redis = c.redis ∧
    (invalidate_cache c none none).redis = c.redis := by
  have hcached : (get_fare_cached c a b now).1 = none := by
    rw [get_fare_cached, hmemo]
    rw [get_fare_cached_body, hmem]
    simp only [Option.isSome_none, Bool.false_and, if_neg]
    rw [redis_phase]
    rcases hbroken with h | h <;> simp [h, redis_get]
  refine ⟨?_, hcached, ?_, ?_, ?_⟩
  · rw [get_fare_with_cache]
    rw [hcached, hdb]
  · rw [set_fare_cache]
    rcases hbroken with h | h <;> simp [h, redis_setex]
  · rw [invalidate_cache]
    rcases hbroken with h | h <;>
      rcases htr : truthy (some a) && truthy (some b) <;>
        simp [h, htr, redis_delete, redis_clear_fare_keys]
  · rw [invalidate_cache]
    rcases hbroken with h | h <;> simp [h, truthy, redis_clear_fare_keys]

/-- Witness for the degraded shared cache theorem: default rule table, cold
cache whose client is unreachable, pair (1,2) with store fare 55. -/
theorem degraded_shared_cache_fails_soft_witness :
    db_get_fare default_rules 1 2 = some 55 ∧
    (get_fare_with_cache default_rules ⟨3600, [], [], [], some .unreachable⟩ 1 2 0).1 = 55 ∧
    (set_fare_cache ⟨3600, [], [], [], some .unreachable⟩ 1 2 55 0).redis =
      some .unreachable := by
  have h := degraded_shared_cache_fails_soft default_rules
    ⟨3600, [], [], [], some .unreachable⟩ 1 2 55 0
    (Or.inr rfl) rfl rfl (by decide)
  exact ⟨by decide, h.1, h.2.2.1⟩

/-- Claim C8: when no rule exists in the store for the pair and no cache
level holds an entry for it (no lru memo entry for the raw pair, no memory
entry and no shared-cache value for the normalized key), the resolution
chain returns the sentinel fare 0.0 instead of failing. -/
theorem missing_rule_resolves_to_zero (db : List FareRow)
    (c : FareRulesCache) (a b : ℤ) (now : ℤ)
    (hmemo : lookupAssoc c.lruMemo (a, b) = none)
    (hmem : lookupAssoc c.memoryCache (make_key a b) = none)
    (hred : redis_lookup c.redis (make_key a b) = none)
    (hdb : db_get_fare db a b = none) :
    (get_fare_with_cache db c a b now).1 = 0 := by
  have hcached : (get_fare_cached c a b now).1 = none := by
    rw [get_fare_cached, hmemo]
    rw [get_fare_cached_body, hmem]
    simp only [Option.isSome_none, Bool.false_and, if_neg]
    rw [redis_phase]
    rcases hr : c.redis with _ | client
    · simp
    · rcases client with store | _
      · rw [hr, redis_lookup] at hred
        simp [redis_get, hred]
      · simp [redis_get]
  rw [get_fare_with_cache, hcached, hdb]

/-- Witness for the missing-rule sentinel theorem: empty store, empty cold
cache without a redis client, pair (7,9). -/
theorem missing_rule_resolves_to_zero_witness :
    (get_fare_with_cache [] ⟨3600, [], [], [], none⟩ 7 9 0).1 = 0 :=
  missing_rule_resolves_to_zero [] ⟨3600, [], [], [], none⟩ 7 9 0
    rfl rfl rfl rfl

/-! ### Claim theorems for the calculator -/

/-- Claim C7: calculate_all_fares preserves the input order — mapping each
item back to its journey returns exactly the input list — assigns the
1-based ordinal ids 1..n by position, and reports journey_count n. -/
theorem calculate_all_fares_preserves_order (single : Journey → ℚ)
    (js : List Journey) :
    (calculate_all_fares single js).journey_count = js.length ∧
    (calculate_all_fares single js).journeys.map
        (fun i => Journey.mk i.from_zone i.to_zone) = js ∧
    (calculate_all_fares single js).journeys.map JourneyWithFare.journey_id =
      (List.range js.length).map (fun k => some (k + 1)) := by
  refine ⟨rfl, calc_loop_journeys single 1 js, ?_⟩
  rw [show (calculate_all_fares single js).journeys = (calc_loop single 1 js).1
      from rfl]
  rw [calc_loop_ids single 1 js]
  exact List.map_congr_left fun k _ => by rw [Nat.add_comm]

/-- Claim C6: each item carries the raw resolved fare (no per-item
rounding), the reported total is the 2-decimal rounding of the sum of the
itemized fares applied once at the end, and on the worked example — the
journeys (1,2), (2,3), (3,3), (1,1) against the rules (1,1) at 40, (1,2)
at 55, (2,3) at 45, (3,3) at 30 — the items are 55, 45, 30, 40 with total
170 and count 4. -/
theorem total_fare_is_rounded_sum :
    (∀ (single : Journey → ℚ) (js : List Journey),
      (calculate_all_fares single js).journeys.map JourneyWithFare.fare =
          js.map single ∧
      (calculate_all_fares single js).total_daily_fare =
        round2 (((calculate_all_fares single js).journeys.map
          JourneyWithFare.fare).sum)) ∧
    (calculate_all_fares (fare_from_rules c6_rules) c6_journeys).journeys.map
        JourneyWithFare.fare = [55, 45, 30, 40] ∧
    (calculate_all_fares (fare_from_rules c6_rules) c6_journeys).total_daily_fare
        = 170 ∧
    (calculate_all_fares (fare_from_rules c6_rules) c6_journeys).journey_count
        = 4 := by
  have hgen : ∀ (single : Journey → ℚ) (js : List Journey),
      (calculate_all_fares single js).journeys.map JourneyWithFare.fare =
          js.map single ∧
      (calculate_all_fares single js).total_daily_fare =
        round2 (((calculate_all_fares single js).journeys.map
          JourneyWithFare.fare).sum) := by
    intro single js
    refine ⟨calc_loop_fares single 1 js, ?_⟩
    show round2 (calc_loop single 1 js).2 =
      round2 ((calc_loop single 1 js).1.map JourneyWithFare.fare).sum
    rw [calc_loop_fares single 1 js, calc_loop_total single 1 js]
  have hmap : c6_journeys.map (fare_from_rules c6_rules) = [55, 45, 30, 40] := by
    decide
  refine ⟨hgen, ?_, ?_, by decide⟩
  · rw [(hgen _ _).1, hmap]
  · rw [(hgen _ _).2, (hgen _ _).1, hmap]
    have hs : ([55, 45, 30, 40] : List ℚ).sum = 170 := by
      norm_num [List.sum_cons, List.sum_nil]
    rw [hs]
    have h := round2_intCast 170
    push_cast at h
    exact h

/-! ### Claim theorems for the endpoint boundary and invalidation branching -/

/-- Claim C9: a batch of exactly MAX_JOURNEYS_PER_DAY valid journeys passes
validation and is fully processed by the calculator (all journeys counted),
while a batch of one more is rejected, and rejected before any fare
resolution occurs: the rejection is the same whatever resolver the
calculator would have used. -/
theorem batch_limit_boundary (zones : List ℤ) (single single1 : Journey → ℚ)
    (js : List Journey) (hvalid : js.all (journey_valid zones) = true) :
    (js.length = MAX_JOURNEYS_PER_DAY →
      calculate_fares_endpoint zones single js =
        .ok (calculate_all_fares single js) ∧
      (calculate_all_fares single js).journey_count = MAX_JOURNEYS_PER_DAY) ∧
    (js.length = MAX_JOURNEYS_PER_DAY + 1 →
      calculate_fares_endpoint zones single js =
        .error "request validation failed" ∧
      calculate_fares_endpoint zones single js =
        calculate_fares_endpoint zones single1 js) := by
  constructor
  · intro h20
    have hep : calculate_fares_endpoint zones single js =
        .ok (calculate_all_fares single js) := by
      rw [calculate_fares_endpoint, journey_request_valid, hvalid, h20]
      simp [MAX_JOURNEYS_PER_DAY]
    refine ⟨hep, ?_⟩
    rw [show (calculate_all_fares single js).journey_count = js.length from rfl,
      h20]
  · intro h21
    have herr : ∀ s : Journey → ℚ, calculate_fares_endpoint zones s js =
        .error "request validation failed" := by
      intro s
      rw [calculate_fares_endpoint, journey_request_valid, hvalid, h21]
      simp [MAX_JOURNEYS_PER_DAY]
    exact ⟨herr single, (herr single).trans (herr single1).symm⟩

/-- Witness for the batch limit theorem: zones 1 to 3, twenty identical
(1,1) journeys are accepted and all processed, twenty one are rejected with
the same outcome under two different resolvers. -/
theorem batch_limit_boundary_witness :
    calculate_fares_endpoint [1, 2, 3] (fun _ => (40 : ℚ))
        (List.replicate 20 ⟨1, 1⟩) =
      .ok (calculate_all_fares (fun _ => (40 : ℚ)) (List.replicate 20 ⟨1, 1⟩)) ∧
    (calculate_all_fares (fun _ => (40 : ℚ))
        (List.replicate 20 ⟨1, 1⟩)).journey_count = 20 ∧
    calculate_fares_endpoint [1, 2, 3] (fun _ => (40 : ℚ))
        (List.replicate 21 ⟨1, 1⟩) = .error "request validation failed" ∧
    calculate_fares_endpoint [1, 2, 3] (fun _ => (40 : ℚ))
        (List.replicate 21 ⟨1, 1⟩) =
      calculate_fares_endpoint [1, 2, 3] (fun _ => (0 : ℚ))
        (List.replicate 21 ⟨1, 1⟩) := by
  have h20 := batch_limit_boundary [1, 2, 3] (fun _ => (40 : ℚ))
    (fun _ => (0 : ℚ)) (List.replicate 20 ⟨1, 1⟩) (by decide)
  have h21 := batch_limit_boundary [1, 2, 3] (fun _ => (40 : ℚ))
    (fun _ => (0 : ℚ)) (List.replicate 21 ⟨1, 1⟩) (by decide)
  exact ⟨(h20.1 (by decide)).1, (h20.1 (by decide)).2,
    (h21.2 (by decide)).1, (h21.2 (by decide)).2⟩

/-- Claim C10: invalidate_cache removes the single normalized entry only
when both zone arguments are supplied and truthy; a call with exactly one
argument supplied, or with a zone argument equal to 0, takes the clear-all
branch, which empties the memory cache, the timestamps, the lru memo, and
every fare key of the shared cache. -/
theorem invalidate_cache_branching (c : FareRulesCache) (a b z : ℤ)
    (s : List ((ℤ × ℤ) × ℚ)) (ha : a ≠ 0) (hb : b ≠ 0) :
    ((invalidate_cache c (some a) (some b)).memoryCache =
        eraseAssoc c.memoryCache (make_key a b) ∧
      (invalidate_cache c (some a) (some b)).cacheTimestamps =
        eraseAssoc c.cacheTimestamps (make_key a b) ∧
      (invalidate_cache c (some a) (some b)).lruMemo = [] ∧
      (c.redis = some (.connected s) →
        (invalidate_cache c (some a) (some b)).redis =
          some (.connected (eraseAssoc s (make_key a b))))) ∧
    (invalidate_cache c (some z) none = invalidate_cache c none none ∧
      invalidate_cache c none (some z) = invalidate_cache c none none ∧
      invalidate_cache c (some 0) (some b) = invalidate_cache c none none ∧
      invalidate_cache c (some a) (some 0) = invalidate_cache c none none) ∧
    ((invalidate_cache c none none).memoryCache = [] ∧
      (invalidate_cache c none none).cacheTimestamps = [] ∧
      (invalidate_cache c none none).lruMemo = [] ∧
      (c.redis = some (.connected s) →
        (invalidate_cache c none none).redis = some (.connected []))) := by
  obtain ⟨ttl, mem, ts, memo, rds⟩ := c
  have htr : (truthy (some a) && truthy (some b)) = true := by
    simp [truthy, ha, hb]
  rcases rds with _ | client
  · simp [invalidate_cache, htr, truthy, ha, hb, redis_delete, redis_clear_fare_keys]
  · rcases client with s1 | _
    · refine ⟨⟨?_, ?_, ?_, ?_⟩, ⟨?_, ?_, ?_, ?_⟩, ?_, ?_, ?_, ?_⟩ <;>
        simp [invalidate_cache, htr, truthy, ha, hb, redis_delete,
          redis_clear_fare_keys]
      all_goals (intro h; subst h; rfl)
    · refine ⟨⟨?_, ?_, ?_, ?_⟩, ⟨?_, ?_, ?_, ?_⟩, ?_, ?_, ?_, ?_⟩ <;>
        simp [invalidate_cache, htr, truthy, ha, hb, redis_delete,
          redis_clear_fare_keys]

/-- Witness for the invalidation branching theorem on a concrete warm cache
with a connected shared cache: a fully truthy call removes the one
normalized entry, one-argument and zero-zone calls coincide with the
clear-all call, and the clear-all call empties the memory cache and the
shared store. -/
theorem invalidate_cache_branching_witness :
    (invalidate_cache c10_cache (some 1) (some 2)).memoryCache =
      eraseAssoc c10_cache.memoryCache (make_key 1 2) ∧
    invalidate_cache c10_cache (some 5) none =
      invalidate_cache c10_cache none none ∧
    invalidate_cache c10_cache (some 0) (some 2) =
      invalidate_cache c10_cache none none ∧
    (invalidate_cache c10_cache none none).memoryCache = [] ∧
    (invalidate_cache c10_cache none none).redis = some (.connected []) := by
  have h := invalidate_cache_branching c10_cache 1 2 5 [((1, 2), 55)]
    (by decide) (by decide)
  exact ⟨h.1.1, h.2.1.1, h.2.1.2.2.1, h.2.2.1, h.2.2.2.2.2 rfl⟩
